import Mathlib

/-!
Verification of the Everything QUERY2 IPC wire-format contract.

The repository's only source file, `src/debug_query2.c`, declares the wire
structures (`EVERYTHING_IPC_QUERY2W`, `EVERYTHING_IPC_ITEM2W`,
`EVERYTHING_IPC_LIST2W`) and the `EVERYTHING_IPC_QUERY2_REQUEST_*` flag
constants, and prints their sizes and field offsets.  This development embeds
that binary contract: the flag vocabulary and the struct layouts come directly
from the C declarations; the encode/decode/field-resolution operations, which
the repository only documents, are modelled from the specification (each such
definition says so in its doc comment).

Byte buffers are `List Nat` with each element a byte value; multi-byte
integers are little-endian, matching the host IPC convention.
-/

set_option autoImplicit false

namespace EverythingIPC

/-- The `EVERYTHING_IPC_QUERY2_REQUEST_*` flag vocabulary from
`src/debug_query2.c` lines 39-49: eleven independent request-flag bits. -/
inductive RequestFlag where
  | NAME
  | PATH
  | FULL_PATH_AND_NAME
  | EXTENSION
  | SIZE
  | DATE_CREATED
  | DATE_MODIFIED
  | DATE_ACCESSED
  | ATTRIBUTES
  | RUN_COUNT
  | DATE_RUN
deriving DecidableEq, Repr, Fintype

/-- Numeric value of each request flag, exactly the `#define` constants in
`src/debug_query2.c` lines 39-49. -/
def RequestFlag.value : RequestFlag → Nat
  | .NAME => 0x00000001
  | .PATH => 0x00000002
  | .FULL_PATH_AND_NAME => 0x00000004
  | .EXTENSION => 0x00000008
  | .SIZE => 0x00000010
  | .DATE_CREATED => 0x00000020
  | .DATE_MODIFIED => 0x00000040
  | .DATE_ACCESSED => 0x00000080
  | .ATTRIBUTES => 0x00000100
  | .RUN_COUNT => 0x00001000
  | .DATE_RUN => 0x00002000

/-- Conversion from an integer code back to the flag name, the inverse of
`RequestFlag.value` on the eleven documented codes. -/
def RequestFlag.ofValue : Nat → Option RequestFlag
  | 0x00000001 => some .NAME
  | 0x00000002 => some .PATH
  | 0x00000004 => some .FULL_PATH_AND_NAME
  | 0x00000008 => some .EXTENSION
  | 0x00000010 => some .SIZE
  | 0x00000020 => some .DATE_CREATED
  | 0x00000040 => some .DATE_MODIFIED
  | 0x00000080 => some .DATE_ACCESSED
  | 0x00000100 => some .ATTRIBUTES
  | 0x00001000 => some .RUN_COUNT
  | 0x00002000 => some .DATE_RUN
  | _ => none

/-- The eleven flags in ascending bit order (the field order used by the
trailing data region of a result list). -/
def RequestFlag.all : List RequestFlag :=
  [.NAME, .PATH, .FULL_PATH_AND_NAME, .EXTENSION, .SIZE, .DATE_CREATED,
   .DATE_MODIFIED, .DATE_ACCESSED, .ATTRIBUTES, .RUN_COUNT, .DATE_RUN]

/-- Error taxonomy of the codecs (spec section 7; `protocolViolation` is the
"reject ... as a protocol violation" outcome of spec section 8). -/
inductive CodecError where
  | truncatedBuffer
  | malformedString
  | outOfBounds
  | fieldNotRequested
  | invalidArgument
  | protocolViolation
deriving DecidableEq, Repr

/-- The outbound search request, the typed view of `EVERYTHING_IPC_QUERY2W`
(`src/debug_query2.c` lines 11-21).  Field names follow the C struct; the
search string is a list of 16-bit wide-character code units. -/
structure QueryRequest where
  reply_hwnd : Nat
  reply_copydata_message : Nat
  search_flags : Nat
  offset : Nat
  max_results : Nat
  request_flags : Nat
  sort_type : Nat
  search_string : List Nat
deriving DecidableEq, Repr

/-- One per-item record, the typed view of `EVERYTHING_IPC_ITEM2W`
(`src/debug_query2.c` lines 23-27). -/
structure ItemDescriptor where
  flags : Nat
  data_offset : Nat
deriving DecidableEq, Repr, Inhabited

/-- The inbound response, the typed view of `EVERYTHING_IPC_LIST2W`
(`src/debug_query2.c` lines 29-36) together with its decoded item array and
trailing data region. -/
structure ResultList where
  totitems : Nat
  numitems : Nat
  offset : Nat
  request_flags : Nat
  sort_type : Nat
  items : List ItemDescriptor
  data : List Nat
deriving DecidableEq, Repr

/-! ### Little-endian byte primitives -/

/-- Little-endian encoding of a 32-bit unsigned integer as four bytes. -/
def le32 (x : Nat) : List Nat :=
  [x % 256, x / 256 % 256, x / 65536 % 256, x / 16777216 % 256]

/-- Little-endian encoding of a 16-bit code unit as two bytes. -/
def le16 (x : Nat) : List Nat :=
  [x % 256, x / 256 % 256]

/-- Read a 4-byte little-endian unsigned integer at byte offset `off`;
`none` when any of the four bytes lies past the buffer end. -/
def readLe32 (buf : List Nat) (off : Nat) : Option Nat :=
  match buf[off]?, buf[off + 1]?, buf[off + 2]?, buf[off + 3]? with
  | some a, some b, some c, some d => some (a + 256 * (b + 256 * (c + 256 * d)))
  | _, _, _, _ => none

/-- Total variant of `readLe32` (out-of-range bytes default to 0); used only
where a bounds check has already been established. -/
def readLe32D (buf : List Nat) (off : Nat) : Nat :=
  buf.getD off 0 + 256 * (buf.getD (off + 1) 0
    + 256 * (buf.getD (off + 2) 0 + 256 * (buf.getD (off + 3) 0)))

/-- The value `readLe32` reassembles from the four little-endian bytes of
`le32 x`. -/
def le32Val (x : Nat) : Nat :=
  x % 256 + 256 * (x / 256 % 256 + 256 * (x / 65536 % 256 + 256 * (x / 16777216 % 256)))

theorem le32Val_eq (x : Nat) (h : x < 4294967296) : le32Val x = x := by
  unfold le32Val
  omega

/-! ### QueryRequest codec -/

/-- Null-terminated 2-byte-per-character encoding of a wide string:
each code unit as two little-endian bytes, then a two-byte null terminator. -/
def encodeWideZ : List Nat → List Nat
  | [] => [0, 0]
  | c :: s => c % 256 :: c / 256 % 256 :: encodeWideZ s

/-- Inverse of `encodeWideZ`: reads consecutive 2-byte little-endian code
units until a null code unit; `none` when no null terminator is found
(a dangling single byte also fails). -/
def decodeWideZ : List Nat → Option (List Nat)
  | a :: b :: rest =>
    if a + 256 * b = 0 then some []
    else (decodeWideZ rest).map (fun s => (a + 256 * b) :: s)
  | _ => none

/-- The raw encoded bytes of a query request: the seven 4-byte header fields
in declared order, then the null-terminated wide search string. -/
def qencBytes (r : QueryRequest) : List Nat :=
  le32 r.reply_hwnd ++ le32 r.reply_copydata_message ++ le32 r.search_flags ++
  le32 r.offset ++ le32 r.max_results ++ le32 r.request_flags ++
  le32 r.sort_type ++ encodeWideZ r.search_string

/-- Modelled from the spec: `Encode(request) -> bytes` of the QueryRequest
codec (spec section 4.2), which `src/debug_query2.c` documents (struct layout,
lines 11-21) but does not implement.  Lays out the seven header fields as
4-byte little-endian integers with no padding, then the null-terminated
2-byte-per-character search string; fails with `invalidArgument` when the
search string exceeds the 32K-character cap. -/
def encodeQuery (r : QueryRequest) : Except CodecError (List Nat) :=
  if 32768 < r.search_string.length then .error .invalidArgument
  else .ok (qencBytes r)

/-- Modelled from the spec: `Decode(bytes) -> request` of the QueryRequest
codec (spec section 4.2), the inverse of `encodeQuery`; fails with
`truncatedBuffer` when fewer than the 28 header bytes are present and with
`malformedString` when the wide string has no null terminator in bounds. -/
def decodeQuery (buf : List Nat) : Except CodecError QueryRequest :=
  if buf.length < 28 then .error .truncatedBuffer
  else
    match readLe32 buf 0, readLe32 buf 4, readLe32 buf 8, readLe32 buf 12,
          readLe32 buf 16, readLe32 buf 20, readLe32 buf 24 with
    | some a, some b, some c, some d, some e, some f, some g =>
      match decodeWideZ (buf.drop 28) with
      | some s => .ok ⟨a, b, c, d, e, f, g, s⟩
      | none => .error .malformedString
    | _, _, _, _, _, _, _ => .error .truncatedBuffer

/-- A query request satisfying the encoder's preconditions: every header
field fits in 32 bits, the search string respects the 32K cap, and each wide
character is a nonzero 16-bit code unit. -/
def QueryRequest.Valid (r : QueryRequest) : Prop :=
  r.reply_hwnd < 4294967296 ∧ r.reply_copydata_message < 4294967296 ∧
  r.search_flags < 4294967296 ∧ r.offset < 4294967296 ∧
  r.max_results < 4294967296 ∧ r.request_flags < 4294967296 ∧
  r.sort_type < 4294967296 ∧ r.search_string.length ≤ 32768 ∧
  ∀ c ∈ r.search_string, 0 < c ∧ c < 65536

instance (r : QueryRequest) : Decidable r.Valid := by
  unfold QueryRequest.Valid
  infer_instance

/-! ### ResultList codec -/

/-- The item descriptor decoded at index `k` of the descriptor array, whose
records are 8 bytes each and start at byte 20: `flags` at relative offset 0
and `data_offset` at relative offset 4 (`EVERYTHING_IPC_ITEM2W`,
`src/debug_query2.c` lines 23-27).  Used only after the bounds check of
`decodeList`, so the defaulting reads never fire out of bounds. -/
def decodeItemAt (buf : List Nat) (k : Nat) : ItemDescriptor :=
  ⟨readLe32D buf (20 + 8 * k), readLe32D buf (20 + 8 * k + 4)⟩

/-- Modelled from the spec: `Decode(bytes) -> result_list` of the ResultList
codec (spec section 4.4), which `src/debug_query2.c` documents (struct layout,
lines 29-36) but does not implement.  Reads the five 4-byte header fields at
offsets 0, 4, 8, 12, 16; fails with `truncatedBuffer` below 20 bytes or when
the declared `numitems` descriptors would read past the buffer end; rejects
`numitems > totitems` as a protocol violation (spec section 8); the trailing
data region is everything from byte `20 + 8 * numitems` to the buffer end. -/
def decodeList (buf : List Nat) : Except CodecError ResultList :=
  if buf.length < 20 then .error .truncatedBuffer
  else
    match readLe32 buf 0, readLe32 buf 4, readLe32 buf 8, readLe32 buf 12,
          readLe32 buf 16 with
    | some tot, some num, some off, some rf, some st =>
      if buf.length < 20 + 8 * num then .error .truncatedBuffer
      else if tot < num then .error .protocolViolation
      else .ok ⟨tot, num, off, rf, st, (List.range num).map (decodeItemAt buf),
                buf.drop (20 + 8 * num)⟩
    | _, _, _, _, _ => .error .truncatedBuffer

/-! ### Field resolution -/

/-- Splits a byte sequence at its first null byte: the null-free field before
the terminator and the remainder after it; `none` when no null byte occurs. -/
def takeUntilNull : List Nat → Option (List Nat × List Nat)
  | [] => none
  | c :: rest =>
    if c = 0 then some ([], rest)
    else (takeUntilNull rest).map (fun p => (c :: p.1, p.2))

/-- Skips `n` null-terminated fields, returning the remainder; `none` when a
terminator is missing. -/
def skipFields : Nat → List Nat → Option (List Nat)
  | 0, d => some d
  | n + 1, d => (takeUntilNull d).bind (fun p => skipFields n p.2)

/-- The number of fields stored before the one for `k`: the requested flags
whose bit value is smaller than `k`'s, in ascending bit order. -/
def countEarlier (flags : Nat) (k : RequestFlag) : Nat :=
  (RequestFlag.all.filter
    (fun f => decide (f.value < k.value) && decide (flags &&& f.value ≠ 0))).length

/-- Modelled from the spec: `ResolveField(result_list, item_index, field_kind)
-> text` (spec section 4.4), which the repository documents but does not
implement.  Fails with `fieldNotRequested` when the header's request flags
lack the bit for `k`; otherwise walks the trailing data region from the item's
`data_offset`, skipping one null-terminated field per requested flag below
`k`'s bit, and returns the next field; fails with `outOfBounds` when a null
terminator is missing before the buffer end (or the item index is out of
range). -/
def resolveField (rl : ResultList) (i : Nat) (k : RequestFlag) :
    Except CodecError (List Nat) :=
  if rl.request_flags &&& k.value = 0 then .error .fieldNotRequested
  else
    match rl.items[i]? with
    | none => .error .outOfBounds
    | some it =>
      match skipFields (countEarlier rl.request_flags k) (rl.data.drop it.data_offset) with
      | none => .error .outOfBounds
      | some d =>
        match takeUntilNull d with
        | none => .error .outOfBounds
        | some p => .ok p.1

/-! ### C struct layout (as compiled from `src/debug_query2.c`) -/

/-- Round `n` up to the next multiple of the alignment `a`. -/
def alignUp (n a : Nat) : Nat := (n + a - 1) / a * a

/-- Byte offsets of a C struct's fields, given each field's (size, alignment)
pair and the current cursor: each field is placed at the cursor aligned up to
the field's alignment. -/
def fieldOffsets : List (Nat × Nat) → Nat → List Nat
  | [], _ => []
  | f :: rest, cur => alignUp cur f.2 :: fieldOffsets rest (alignUp cur f.2 + f.1)

/-- End offset (one past the last field) of a C struct layout. -/
def structEnd : List (Nat × Nat) → Nat → Nat
  | [], cur => cur
  | f :: rest, cur => structEnd rest (alignUp cur f.2 + f.1)

/-- The struct's overall alignment: the maximum field alignment. -/
def maxAlign (fs : List (Nat × Nat)) : Nat :=
  fs.foldr (fun f m => max f.2 m) 1

/-- `sizeof` of a C struct: the end offset rounded up to the struct
alignment (tail padding). -/
def sizeofStruct (fs : List (Nat × Nat)) : Nat :=
  alignUp (structEnd fs 0) (maxAlign fs)

/-- The (size, alignment) pairs of `EVERYTHING_IPC_QUERY2W`'s fields
(`src/debug_query2.c` lines 11-21): seven `DWORD`s then the one-element
`WCHAR` array. -/
def query2WFields : List (Nat × Nat) :=
  [(4, 4), (4, 4), (4, 4), (4, 4), (4, 4), (4, 4), (4, 4), (2, 2)]

/-! ### Helper lemmas -/

theorem encodeWideZ_length (s : List Nat) : (encodeWideZ s).length = 2 * s.length + 2 := by
  induction s with
  | nil => rfl
  | cons c s ih =>
    simp [encodeWideZ, ih]
    omega

theorem decodeWideZ_encodeWideZ (s : List Nat) (h : ∀ c ∈ s, 0 < c ∧ c < 65536) :
    decodeWideZ (encodeWideZ s) = some s := by
  induction s with
  | nil => rfl
  | cons c s ih =>
    obtain ⟨hc0, hc⟩ := h c (List.mem_cons_self c s)
    have hce : c % 256 + 256 * (c / 256 % 256) = c := by omega
    have hr := ih (fun x hx => h x (List.mem_cons_of_mem _ hx))
    simp [encodeWideZ, decodeWideZ, hce, hr]
    omega

theorem qencBytes_length (r : QueryRequest) :
    (qencBytes r).length = 28 + 2 * (r.search_string.length + 1) := by
  simp [qencBytes, le32, encodeWideZ_length]
  omega

theorem readLe32_qencBytes (r : QueryRequest) :
    readLe32 (qencBytes r) 0 = some (le32Val r.reply_hwnd) ∧
    readLe32 (qencBytes r) 4 = some (le32Val r.reply_copydata_message) ∧
    readLe32 (qencBytes r) 8 = some (le32Val r.search_flags) ∧
    readLe32 (qencBytes r) 12 = some (le32Val r.offset) ∧
    readLe32 (qencBytes r) 16 = some (le32Val r.max_results) ∧
    readLe32 (qencBytes r) 20 = some (le32Val r.request_flags) ∧
    readLe32 (qencBytes r) 24 = some (le32Val r.sort_type) := by
  refine ⟨?_, ?_, ?_, ?_, ?_, ?_, ?_⟩ <;>
    simp [qencBytes, le32, readLe32, le32Val]

theorem qencBytes_drop (r : QueryRequest) :
    (qencBytes r).drop 28 = encodeWideZ r.search_string := by
  simp [qencBytes, le32]

theorem readLe32_of_le (buf : List Nat) (off : Nat) (h : off + 4 ≤ buf.length) :
    readLe32 buf off = some (readLe32D buf off) := by
  have h0 : buf[off]? = some (buf.getD off 0) := by
    rw [List.getD_eq_getElem?_getD, List.getElem?_eq_getElem (by omega)]
    rfl
  have h1 : buf[off + 1]? = some (buf.getD (off + 1) 0) := by
    rw [List.getD_eq_getElem?_getD, List.getElem?_eq_getElem (by omega)]
    rfl
  have h2 : buf[off + 2]? = some (buf.getD (off + 2) 0) := by
    rw [List.getD_eq_getElem?_getD, List.getElem?_eq_getElem (by omega)]
    rfl
  have h3 : buf[off + 3]? = some (buf.getD (off + 3) 0) := by
    rw [List.getD_eq_getElem?_getD, List.getElem?_eq_getElem (by omega)]
    rfl
  rw [readLe32, h0, h1, h2, h3, readLe32D]

theorem decodeList_ok (buf : List Nat) (rl : ResultList) (h : decodeList buf = .ok rl) :
    readLe32 buf 0 = some rl.totitems ∧ readLe32 buf 4 = some rl.numitems ∧
    readLe32 buf 8 = some rl.offset ∧ readLe32 buf 12 = some rl.request_flags ∧
    readLe32 buf 16 = some rl.sort_type ∧ rl.numitems ≤ rl.totitems ∧
    20 + 8 * rl.numitems ≤ buf.length ∧
    rl.items = (List.range rl.numitems).map (decodeItemAt buf) ∧
    rl.data = buf.drop (20 + 8 * rl.numitems) := by
  unfold decodeList at h
  split at h
  · exact absurd h (by simp)
  · split at h
    · next tot num off rf st heq0 heq4 heq8 heq12 heq16 =>
      split at h
      · exact absurd h (by simp)
      · split at h
        · exact absurd h (by simp)
        · cases h
          simp_all
    · exact absurd h (by simp)

theorem takeUntilNull_count_zero (d : List Nat) (h : d.count 0 = 0) :
    takeUntilNull d = none := by
  induction d with
  | nil => rfl
  | cons c rest ih =>
    rw [List.count_cons] at h
    have hc : c ≠ 0 := by
      intro hc
      simp [hc] at h
    have hrest : rest.count 0 = 0 := by omega
    simp [takeUntilNull, hc, ih hrest]

theorem takeUntilNull_some_count (d s r : List Nat) (h : takeUntilNull d = some (s, r)) :
    r.count 0 + 1 ≤ d.count 0 := by
  induction d generalizing s with
  | nil => exact absurd h (by simp [takeUntilNull])
  | cons c rest ih =>
    rw [takeUntilNull] at h
    by_cases hc : c = 0
    · rw [if_pos hc] at h
      cases h
      simp [List.count_cons, hc]
    · rw [if_neg hc] at h
      match hrec : takeUntilNull rest with
      | none => rw [hrec] at h; exact absurd h (by simp)
      | some p =>
        rw [hrec] at h
        simp only [Option.map_some'] at h
        cases h
        have := ih p.1 hrec
        simp [List.count_cons, hc]
        omega

theorem skipFields_count_lt (n : Nat) (d : List Nat) (h : d.count 0 < n) :
    skipFields n d = none := by
  induction n generalizing d with
  | zero => omega
  | succ n ih =>
    rw [skipFields]
    match hrec : takeUntilNull d with
    | none => rfl
    | some p =>
      have := takeUntilNull_some_count d p.1 p.2 (by rw [hrec])
      simp only [Option.some_bind]
      exact ih p.2 (by omega)

theorem skipFields_some_count (n : Nat) (d d' : List Nat) (h : skipFields n d = some d') :
    d'.count 0 + n ≤ d.count 0 := by
  induction n generalizing d with
  | zero =>
    rw [skipFields] at h
    cases h
    omega
  | succ n ih =>
    rw [skipFields] at h
    match hrec : takeUntilNull d with
    | none => rw [hrec] at h; exact absurd h (by simp)
    | some p =>
      rw [hrec] at h
      simp only [Option.some_bind] at h
      have h1 := takeUntilNull_some_count d p.1 p.2 (by rw [hrec])
      have h2 := ih p.2 h
      omega

theorem encodeQuery_ok (r : QueryRequest) (buf : List Nat)
    (h : encodeQuery r = .ok buf) : buf = qencBytes r := by
  unfold encodeQuery at h
  split at h
  · exact absurd h (by simp)
  · cases h
    rfl

/-! ### Concrete example values -/

/-- The example query request of spec section 8: target 100, message 2,
all results, NAME and SIZE requested, sort type 1, searching for "foo". -/
def exampleRequest : QueryRequest :=
  ⟨100, 2, 0, 0, 0xFFFFFFFF, 0x1 ||| 0x10, 1, [102, 111, 111]⟩

/-- A well-formed 28-byte result-list buffer: header
{totitems 1, numitems 1, offset 0, request_flags NAME, sort_type 0}
followed by one descriptor {flags 7, data_offset 3} and no trailing data. -/
def exampleListBuf : List Nat :=
  [1, 0, 0, 0, 1, 0, 0, 0, 0, 0, 0, 0, 1, 0, 0, 0, 0, 0, 0, 0,
   7, 0, 0, 0, 3, 0, 0, 0]

/-- The result list decoded from `exampleListBuf`. -/
def exampleList : ResultList :=
  ⟨1, 1, 0, 1, 0, [⟨7, 3⟩], []⟩

/-! ### Claim theorems -/

/-- C1: the RequestFlags vocabulary assigns exactly NAME=0x1, PATH=0x2,
FULL_PATH_AND_NAME=0x4, EXTENSION=0x8, SIZE=0x10, DATE_CREATED=0x20,
DATE_MODIFIED=0x40, DATE_ACCESSED=0x80, ATTRIBUTES=0x100, RUN_COUNT=0x1000,
DATE_RUN=0x2000 — eleven distinct single-bit values with no flags at 0x200,
0x400 or 0x800, and the name/value conversions reproduce exactly these
codes in both directions. -/
theorem requestFlag_values :
    (∀ f g : RequestFlag, f.value = g.value → f = g) ∧
    (∀ (n : Nat) (f : RequestFlag), RequestFlag.ofValue n = some f → f.value = n) ∧
    (RequestFlag.NAME.value = 0x1 ∧ RequestFlag.PATH.value = 0x2 ∧
     RequestFlag.FULL_PATH_AND_NAME.value = 0x4 ∧ RequestFlag.EXTENSION.value = 0x8 ∧
     RequestFlag.SIZE.value = 0x10 ∧ RequestFlag.DATE_CREATED.value = 0x20 ∧
     RequestFlag.DATE_MODIFIED.value = 0x40 ∧ RequestFlag.DATE_ACCESSED.value = 0x80 ∧
     RequestFlag.ATTRIBUTES.value = 0x100 ∧ RequestFlag.RUN_COUNT.value = 0x1000 ∧
     RequestFlag.DATE_RUN.value = 0x2000) ∧
    (∀ f : RequestFlag, ∃ j, j < 14 ∧ f.value = 2 ^ j) ∧
    (RequestFlag.ofValue 0x200 = none ∧ RequestFlag.ofValue 0x400 = none ∧
     RequestFlag.ofValue 0x800 = none) ∧
    (∀ f : RequestFlag, RequestFlag.ofValue f.value = some f) := by
  refine ⟨by decide, ?_, by decide, by decide, by decide, by decide⟩
  intro n f h
  unfold RequestFlag.ofValue at h
  split at h <;> cases h <;> rfl

/-- Witness for C1 at concrete inputs: injectivity applied at NAME and the
value/ofValue round trip applied at 0x2000. -/
theorem requestFlag_values_witness :
    RequestFlag.NAME = RequestFlag.NAME ∧ RequestFlag.DATE_RUN.value = 0x2000 :=
  ⟨requestFlag_values.1 RequestFlag.NAME RequestFlag.NAME rfl,
   requestFlag_values.2.1 0x2000 RequestFlag.DATE_RUN (by decide)⟩

/-- C2: the encoded query buffer carries the seven header fields as 4-byte
little-endian unsigned integers at byte offsets 0, 4, 8, 12, 16, 20, 24 with
no padding, and the null-terminated 2-byte-per-character search string starts
at byte offset 28. -/
theorem queryEncode_layout (r : QueryRequest) (buf : List Nat) (hv : r.Valid)
    (henc : encodeQuery r = .ok buf) :
    readLe32 buf 0 = some r.reply_hwnd ∧
    readLe32 buf 4 = some r.reply_copydata_message ∧
    readLe32 buf 8 = some r.search_flags ∧
    readLe32 buf 12 = some r.offset ∧
    readLe32 buf 16 = some r.max_results ∧
    readLe32 buf 20 = some r.request_flags ∧
    readLe32 buf 24 = some r.sort_type ∧
    buf.drop 28 = encodeWideZ r.search_string := by
  obtain ⟨h1, h2, h3, h4, h5, h6, h7, _, _⟩ := hv
  cases encodeQuery_ok r buf henc
  obtain ⟨e0, e4, e8, e12, e16, e20, e24⟩ := readLe32_qencBytes r
  rw [le32Val_eq _ h1] at e0
  rw [le32Val_eq _ h2] at e4
  rw [le32Val_eq _ h3] at e8
  rw [le32Val_eq _ h4] at e12
  rw [le32Val_eq _ h5] at e16
  rw [le32Val_eq _ h6] at e20
  rw [le32Val_eq _ h7] at e24
  exact ⟨e0, e4, e8, e12, e16, e20, e24, qencBytes_drop r⟩

/-- Witness for C2 at the example request: the first and last header fields
read back from their documented offsets. -/
theorem queryEncode_layout_witness :
    readLe32 (qencBytes exampleRequest) 0 = some 100 ∧
    readLe32 (qencBytes exampleRequest) 24 = some 1 :=
  ⟨(queryEncode_layout exampleRequest (qencBytes exampleRequest) (by decide) rfl).1,
   (queryEncode_layout exampleRequest (qencBytes exampleRequest) (by decide)
      rfl).2.2.2.2.2.2.1⟩

/-- C3: every buffer accepted by the ResultList decoder has its five header
fields as 4-byte integers at offsets 0, 4, 8, 12, 16, its numitems 8-byte
item records contiguous from byte 20 (flags at relative offset 0,
data_offset at relative offset 4), and its trailing data region from byte
20 + 8*numitems to the buffer end. -/
theorem decodeList_layout (buf : List Nat) (rl : ResultList)
    (h : decodeList buf = .ok rl) :
    readLe32 buf 0 = some rl.totitems ∧ readLe32 buf 4 = some rl.numitems ∧
    readLe32 buf 8 = some rl.offset ∧ readLe32 buf 12 = some rl.request_flags ∧
    readLe32 buf 16 = some rl.sort_type ∧
    rl.items.length = rl.numitems ∧
    (∀ k, k < rl.numitems →
      readLe32 buf (20 + 8 * k) = some ((rl.items.getD k default).flags) ∧
      readLe32 buf (20 + 8 * k + 4) = some ((rl.items.getD k default).data_offset)) ∧
    rl.data = buf.drop (20 + 8 * rl.numitems) ∧
    20 + 8 * rl.numitems ≤ buf.length := by
  obtain ⟨e0, e4, e8, e12, e16, hle, hlen, hitems, hdata⟩ := decodeList_ok buf rl h
  refine ⟨e0, e4, e8, e12, e16, ?_, ?_, hdata, hlen⟩
  · rw [hitems]
    simp
  · intro k hk
    have hgetD : rl.items.getD k default = decodeItemAt buf k := by
      rw [hitems, List.getD_eq_getElem?_getD, List.getElem?_map, List.getElem?_range hk]
      rfl
    refine ⟨?_, ?_⟩
    · rw [readLe32_of_le buf (20 + 8 * k) (by omega), hgetD]
      rfl
    · rw [readLe32_of_le buf (20 + 8 * k + 4) (by omega), hgetD]
      rfl

/-- Witness for C3 at a concrete accepted buffer: the header's totitems at
offset 0 and the sole item's two fields at offsets 20 and 24. -/
theorem decodeList_layout_witness :
    readLe32 exampleListBuf 0 = some 1 ∧
    readLe32 exampleListBuf 20 = some 7 ∧
    readLe32 exampleListBuf 24 = some 3 :=
  ⟨(decodeList_layout exampleListBuf exampleList rfl).1,
   ((decodeList_layout exampleListBuf exampleList rfl).2.2.2.2.2.2.1 0 (by decide)).1,
   ((decodeList_layout exampleListBuf exampleList rfl).2.2.2.2.2.2.1 0 (by decide)).2⟩

/-- C4: encoding succeeds with a buffer of exactly 28 + 2*(len+1) bytes,
where len is the search string's character count; at the example request
(search string "foo") this is 36 bytes. -/
theorem queryEncode_length (r : QueryRequest) (buf : List Nat)
    (henc : encodeQuery r = .ok buf) :
    buf.length = 28 + 2 * (r.search_string.length + 1) := by
  cases encodeQuery_ok r buf henc
  exact qencBytes_length r

/-- Witness for C4: the example request (reply target 100, message 2,
all results, NAME|SIZE, sort 1, "foo") encodes to exactly 36 bytes. -/
theorem queryEncode_length_witness :
    encodeQuery exampleRequest = .ok (qencBytes exampleRequest) ∧
    (qencBytes exampleRequest).length = 36 := by
  refine ⟨rfl, ?_⟩
  have h := queryEncode_length exampleRequest (qencBytes exampleRequest) rfl
  simpa using h

/-- C5: for every query request satisfying the encoder's preconditions,
decoding the encoded bytes yields the request again. -/
theorem query_roundtrip (r : QueryRequest) (h : r.Valid) :
    encodeQuery r = .ok (qencBytes r) ∧ decodeQuery (qencBytes r) = .ok r := by
  obtain ⟨h1, h2, h3, h4, h5, h6, h7, hlen, hchars⟩ := h
  constructor
  · unfold encodeQuery
    rw [if_neg (by omega)]
  · have hb : ¬ (qencBytes r).length < 28 := by
      rw [qencBytes_length]
      omega
    obtain ⟨e0, e4, e8, e12, e16, e20, e24⟩ := readLe32_qencBytes r
    unfold decodeQuery
    rw [if_neg hb, e0, e4, e8, e12, e16, e20, e24, qencBytes_drop r,
        decodeWideZ_encodeWideZ r.search_string hchars]
    simp [le32Val_eq _ h1, le32Val_eq _ h2, le32Val_eq _ h3, le32Val_eq _ h4,
          le32Val_eq _ h5, le32Val_eq _ h6, le32Val_eq _ h7]

/-- Witness for C5: the round trip at the example request. -/
theorem query_roundtrip_witness :
    encodeQuery exampleRequest = .ok (qencBytes exampleRequest) ∧
    decodeQuery (qencBytes exampleRequest) = .ok exampleRequest :=
  query_roundtrip exampleRequest (by decide)

/-- C6: the ResultList decoder fails with truncatedBuffer on every buffer
shorter than 20 bytes, and on every buffer whose header declares numitems = n
but which holds fewer than 20 + 8n bytes; the error return carries no
partially populated result. -/
theorem decodeList_truncated :
    (∀ buf : List Nat, buf.length < 20 → decodeList buf = .error .truncatedBuffer) ∧
    (∀ (buf : List Nat) (n : Nat), readLe32 buf 4 = some n →
      buf.length < 20 + 8 * n → decodeList buf = .error .truncatedBuffer) := by
  constructor
  · intro buf h
    unfold decodeList
    rw [if_pos h]
  · intro buf n hn h
    unfold decodeList
    split
    · rfl
    · split
      · next tot num off rf st heq0 heq4 heq8 heq12 heq16 =>
        rw [hn] at heq4
        injection heq4 with heq
        subst heq
        rw [if_pos (by omega)]
      · rfl

/-- Witness for C6: the empty buffer, and a 20-byte buffer declaring one
item, both rejected as truncated. -/
theorem decodeList_truncated_witness :
    decodeList [] = .error .truncatedBuffer ∧
    decodeList [0, 0, 0, 0, 1, 0, 0, 0, 0, 0, 0, 0, 0, 0, 0, 0, 0, 0, 0, 0] =
      .error .truncatedBuffer :=
  ⟨decodeList_truncated.1 [] (by decide),
   decodeList_truncated.2 [0, 0, 0, 0, 1, 0, 0, 0, 0, 0, 0, 0, 0, 0, 0, 0, 0, 0, 0, 0]
     1 (by decide) (by decide)⟩

/-- C7: every result list accepted by the decoder satisfies
numitems ≤ totitems (violating buffers are rejected as a protocol
violation), and its item sequence has exactly numitems entries. -/
theorem decodeList_invariant (buf : List Nat) (rl : ResultList)
    (h : decodeList buf = .ok rl) :
    rl.numitems ≤ rl.totitems ∧ rl.items.length = rl.numitems := by
  obtain ⟨_, _, _, _, _, hle, _, hitems, _⟩ := decodeList_ok buf rl h
  refine ⟨hle, ?_⟩
  rw [hitems]
  simp

/-- Witness for C7 at the concrete accepted buffer. -/
theorem decodeList_invariant_witness :
    exampleList.numitems ≤ exampleList.totitems ∧
    exampleList.items.length = exampleList.numitems :=
  decodeList_invariant exampleListBuf exampleList rfl

/-- C8: whenever the header's request flags lack the bit for the requested
field kind, field resolution fails with fieldNotRequested — for every result
list, every item index and every one of the 11 flag kinds. -/
theorem resolveField_not_requested (rl : ResultList) (i : Nat) (k : RequestFlag)
    (h : rl.request_flags &&& k.value = 0) :
    resolveField rl i k = .error .fieldNotRequested := by
  unfold resolveField
  rw [if_pos h]

/-- Witness for C8: a list whose header requested nothing rejects a NAME
lookup. -/
theorem resolveField_not_requested_witness :
    resolveField ⟨1, 1, 0, 0, 0, [⟨0, 0⟩], [97, 0]⟩ 0 RequestFlag.NAME =
      .error .fieldNotRequested :=
  resolveField_not_requested ⟨1, 1, 0, 0, 0, [⟨0, 0⟩], [97, 0]⟩ 0
    RequestFlag.NAME (by decide)

/-- C9: when the trailing data region holds fewer null terminators than the
walk to the requested field needs (one per requested field up to and
including the target), field resolution fails with outOfBounds rather than
reading past the buffer end. -/
theorem resolveField_out_of_bounds (rl : ResultList) (i : Nat) (k : RequestFlag)
    (it : ItemDescriptor) (hreq : rl.request_flags &&& k.value ≠ 0)
    (hit : rl.items[i]? = some it)
    (hz : (rl.data.drop it.data_offset).count 0 < countEarlier rl.request_flags k + 1) :
    resolveField rl i k = .error .outOfBounds := by
  unfold resolveField
  rw [if_neg hreq]
  simp only [hit]
  match hsk : skipFields (countEarlier rl.request_flags k) (rl.data.drop it.data_offset) with
  | none => simp only [hsk]
  | some d =>
    simp only [hsk]
    have h1 := skipFields_some_count _ _ _ hsk
    have hd : d.count 0 = 0 := by omega
    simp only [takeUntilNull_count_zero d hd]

/-- Witness for C9: a NAME lookup in a data region with no null terminator
fails with outOfBounds. -/
theorem resolveField_out_of_bounds_witness :
    resolveField ⟨1, 1, 0, 1, 0, [⟨0, 0⟩], [97]⟩ 0 RequestFlag.NAME =
      .error .outOfBounds :=
  resolveField_out_of_bounds ⟨1, 1, 0, 1, 0, [⟨0, 0⟩], [97]⟩ 0 RequestFlag.NAME
    ⟨0, 0⟩ (by decide) (by decide) (by decide)

/-- C10: in the compiled C struct layout of EVERYTHING_IPC_QUERY2W the
search_string member sits at offset 28 (the wire header length) while sizeof
is 32 (the one-element WCHAR array plus 2 bytes of tail padding), so a
buffer length computed as sizeof + 2*len is 32 + 2*len, exceeding the
contract's 28 + 2*(len+1) by exactly 2 for every string length. -/
theorem query2W_sizeof_vs_wire :
    (fieldOffsets query2WFields 0)[7]? = some 28 ∧
    sizeofStruct query2WFields = 32 ∧
    (28 : Nat) < 32 ∧
    ∀ len : Nat, sizeofStruct query2WFields + 2 * len = (28 + 2 * (len + 1)) + 2 := by
  refine ⟨by decide, by decide, by decide, ?_⟩
  intro len
  have h : sizeofStruct query2WFields = 32 := by decide
  omega

end EverythingIPC
